import Mathlib

/-!
Verification of the Esp32-Voice-Ai firmware (src/main.cpp) against its
natural-language specification.

The development shallowly embeds the parts of `src/main.cpp` the claims
are about:

* the base64 codec (`base64_encode`, `base64_decode`, `isBase64`,
  `calculateDecodedSize`, lines 764-851),
* the pipeline state machine of `loop` together with `setError`,
  `startRecording`, `processSpeech`, `queryGemini` and `textToSpeech`
  (lines 133-261, 587-744, 863-867),
* the RIFF/WAVE header writer, which is described by the specification
  but is absent from `src/main.cpp` and is therefore modelled from the
  specification text.

Bytes are `Nat` values; assignments to C `unsigned char` lvalues are
rendered with an explicit `% 256`, and `size_t` subtraction with an
explicit wrap at `2 ^ 64`.  C bit operations on byte values are rendered
arithmetically: for `b < 256`, `(b & 0xfc) >> 2 = b / 4`,
`(b & 0x03) << 4 = b % 4 * 16`, `(b & 0xf0) >> 4 = b / 16`,
`(b & 0x0f) << 2 = b % 16 * 4`, `(b & 0xc0) >> 6 = b / 64`,
`b & 0x3f = b % 64`, `x << 2 = x * 4`, `x << 4 = x * 16`,
`x << 6 = x * 64`, `x >> 4 = x / 16`, `x >> 2 = x / 4`.
-/

/-! ## Base64 codec (src/main.cpp lines 764-851) -/

/-- The alphabet `base64_chars` (line 764). -/
def base64_chars : List Char :=
  "ABCDEFGHIJKLMNOPQRSTUVWXYZabcdefghijklmnopqrstuvwxyz0123456789+/".toList

/-- Indexing `base64_chars[n]` for `n < 64` (encoder, lines 821 and 834). -/
def b64char (n : Nat) : Char := base64_chars.getD n 'A'

/-- The index computation `strchr(base64_chars, c) - base64_chars`
(decoder, lines 782 and 796).  Every character the decoder looks up is
either a member of the alphabet (index 0-63) or the zero character
`'\0'` written into `char_array_4` by line 794; for the latter, `strchr`
finds the string's NUL terminator at offset 64, which `List.indexOf`
reproduces because `'\0'` is not in the 64-element list. -/
def b64index (c : Char) : Nat := base64_chars.indexOf c

/-- Predicate `isBase64` (lines 769-771): `isalnum(c) || c == '+' || c == '/'`. -/
def isBase64 (c : Char) : Bool := c.isAlphanum || c == '+' || c == '/'

/-- The decoder's loop guard (line 778): continue while the current
character is not `'='` and `isBase64` holds. -/
def b64keep (c : Char) : Bool := !(c == '=') && isBase64 c

/-- The zero byte written into `char_array_4` by line 794. -/
def nulChar : Char := Char.ofNat 0

/-- One full group of the decoder (lines 780-788): four characters are
converted to indices and packed into three bytes.  `char_array_3` has
type `unsigned char`, hence the `% 256`. -/
def decodeQuad (c0 c1 c2 c3 : Char) : List Nat :=
  [(b64index c0 * 4 + b64index c1 / 16) % 256,
   (b64index c1 * 16 + b64index c2 / 4) % 256,
   (b64index c2 * 64 + b64index c3) % 256]

/-- The decoder's epilogue (lines 792-800): with `i` leftover characters
(`0 < i < 4`), the remaining slots of `char_array_4` are zeroed, all four
are converted (the zero slots become index 64, see `b64index`), the first
two output bytes are reconstructed and the first `i - 1` of them are
emitted. -/
def decodeTail (l : List Char) : List Nat :=
  if l.length = 0 then []
  else
    [(b64index (l.getD 0 nulChar) * 4 + b64index (l.getD 1 nulChar) / 16) % 256,
     (b64index (l.getD 1 nulChar) * 16 + b64index (l.getD 2 nulChar) / 4) % 256].take
      (l.length - 1)

/-- The decoder's main loop (lines 778-800) on the characters it
actually consumes: four at a time through `decodeQuad`, the leftover
through `decodeTail`. -/
def decodeGroups : List Char → List Nat
  | c0 :: c1 :: c2 :: c3 :: rest => decodeQuad c0 c1 c2 c3 ++ decodeGroups rest
  | l => decodeTail l

/-- Decoder `base64_decode` (lines 773-803).  The loop guard stops at the first
`'='` or non-alphabet character, so the consumed characters are exactly
the longest `b64keep` run at the front of the input. -/
def base64_decode (input : List Char) : List Nat :=
  decodeGroups (input.takeWhile b64keep)

/-- Encoder `base64_encode` (lines 805-841): the input is consumed in 3-byte
groups (lines 812-824); 1 or 2 leftover bytes are zero-padded, `i + 1`
characters are emitted and `3 - i` pad characters `'='` are appended
(lines 826-838).  Reading `*data++` into the `unsigned char` array
`char_array_3` is the `% 256`. -/
def encodeGroup (b0 b1 b2 : Nat) : List Char :=
  [b64char (b0 / 4),
   b64char (b0 % 4 * 16 + b1 / 16),
   b64char (b1 % 16 * 4 + b2 / 64),
   b64char (b2 % 64)]

def base64_encode : List Nat → List Char
  | [] => []
  | [b0] =>
    [b64char (b0 % 256 / 4), b64char (b0 % 256 % 4 * 16), '=', '=']
  | [b0, b1] =>
    [b64char (b0 % 256 / 4),
     b64char (b0 % 256 % 4 * 16 + b1 % 256 / 16),
     b64char (b1 % 256 % 16 * 4), '=']
  | b0 :: b1 :: b2 :: rest =>
    encodeGroup (b0 % 256) (b1 % 256) (b2 % 256) ++ base64_encode rest

/-- Estimator `calculateDecodedSize` (lines 843-851): `strlen * 3 / 4` minus the
number of trailing `'='` characters, computed in `size_t`, whence the
wrap at `2 ^ 64` when the subtraction underflows. -/
def calculateDecodedSize (s : List Char) : Nat :=
  (s.length * 3 / 4 + 18446744073709551616 -
    ((if 0 < s.length ∧ s.getD (s.length - 1) nulChar = '=' then 1 else 0) +
     (if 1 < s.length ∧ s.getD (s.length - 2) nulChar = '=' then 1 else 0))) %
    18446744073709551616

/-- C1.  The specification demands a carry-preserving streaming encoder
whose successive calls concatenate to the whole-stream encoding.  The
code's `base64_encode` keeps no carry between calls: encoding the split
`A = [0x4D]`, `B = [0x61, 0x6E]` in two calls yields `"TQ==YW4="`, with a
pad character already emitted by the non-final call, while the
whole-stream encoding of `A ++ B` is `"TWFu"`. -/
theorem C1_chunked_encode_emits_padding :
    base64_encode [0x4D] ++ base64_encode [0x61, 0x6E] ≠
      base64_encode [0x4D, 0x61, 0x6E]
    ∧ '=' ∈ base64_encode [0x4D]
    ∧ base64_encode [0x4D] ++ base64_encode [0x61, 0x6E] = "TQ==YW4=".toList
    ∧ base64_encode [0x4D, 0x61, 0x6E] = "TWFu".toList := by
  decide

/-! ## Helper lemmas for the codec -/

/-- Induction following the 3-byte grouping of `base64_encode`. -/
def threeStepInduction {motive : List Nat → Prop} (h0 : motive [])
    (h1 : ∀ b0, motive [b0]) (h2 : ∀ b0 b1, motive [b0, b1])
    (h3 : ∀ b0 b1 b2 rest, motive rest → motive (b0 :: b1 :: b2 :: rest)) :
    ∀ l, motive l
  | [] => h0
  | [b0] => h1 b0
  | [b0, b1] => h2 b0 b1
  | b0 :: b1 :: b2 :: rest =>
    h3 b0 b1 b2 rest (threeStepInduction h0 h1 h2 h3 rest)

/-- Induction following the 4-character grouping of `decodeGroups`. -/
def fourStepInduction {motive : List Char → Prop} (h0 : motive [])
    (h1 : ∀ a, motive [a]) (h2 : ∀ a b, motive [a, b])
    (h3 : ∀ a b c, motive [a, b, c])
    (h4 : ∀ a b c d t, motive t → motive (a :: b :: c :: d :: t)) :
    ∀ l, motive l
  | [] => h0
  | [a] => h1 a
  | [a, b] => h2 a b
  | [a, b, c] => h3 a b c
  | a :: b :: c :: d :: t =>
    h4 a b c d t (fourStepInduction h0 h1 h2 h3 h4 t)

theorem b64keep_b64char_fin : ∀ n : Fin 64, b64keep (b64char n.val) = true := by
  decide

theorem b64index_b64char_fin : ∀ n : Fin 64, b64index (b64char n.val) = n.val := by
  decide

theorem b64keep_b64char {n : Nat} (h : n < 64) : b64keep (b64char n) = true :=
  b64keep_b64char_fin ⟨n, h⟩

theorem b64index_b64char {n : Nat} (h : n < 64) : b64index (b64char n) = n :=
  b64index_b64char_fin ⟨n, h⟩

theorem b64keep_pad : b64keep '=' = false := by decide

theorem decodeTail_two (a b : Char) :
    decodeTail [a, b] = [(b64index a * 4 + b64index b / 16) % 256] := rfl

theorem decodeTail_three (a b c : Char) :
    decodeTail [a, b, c] =
      [(b64index a * 4 + b64index b / 16) % 256,
       (b64index b * 16 + b64index c / 4) % 256] := rfl

theorem decodeGroups_cons4 (a b c d : Char) (t : List Char) :
    decodeGroups (a :: b :: c :: d :: t) = decodeQuad a b c d ++ decodeGroups t :=
  rfl

theorem keep_of_isBase64 {c : Char} (h : isBase64 c = true) : b64keep c = true := by
  by_cases hc : c = '='
  · subst hc; exact absurd h (by decide)
  · simp [b64keep, hc, h]

theorem takeWhile_append_all {p : Char → Bool} {a : List Char} (b : List Char)
    (h : ∀ x ∈ a, p x = true) :
    (a ++ b).takeWhile p = a ++ b.takeWhile p := by
  induction a with
  | nil => simp
  | cons x xs ih =>
    have hx : p x = true := h x (by simp)
    simp only [List.cons_append, List.takeWhile_cons, hx, if_true]
    rw [ih fun y hy => h y (by simp [hy])]

theorem takeWhile_all {p : Char → Bool} {a : List Char}
    (h : ∀ x ∈ a, p x = true) : a.takeWhile p = a := by
  have := takeWhile_append_all (p := p) (a := a) [] h
  simpa using this

theorem takeWhile_stop {p : Char → Bool} (w : List Char) (c : Char) (t : List Char)
    (h : p c = false) : (w ++ c :: t).takeWhile p = w.takeWhile p := by
  induction w with
  | nil => simp [List.takeWhile_cons, h]
  | cons x xs ih =>
    cases hp : p x <;> simp [List.takeWhile_cons, hp, ih]

theorem decodeQuad_encodeGroup {b0 b1 b2 : Nat} (h0 : b0 < 256) (h1 : b1 < 256)
    (h2 : b2 < 256) :
    decodeQuad (b64char (b0 / 4)) (b64char (b0 % 4 * 16 + b1 / 16))
      (b64char (b1 % 16 * 4 + b2 / 64)) (b64char (b2 % 64)) = [b0, b1, b2] := by
  unfold decodeQuad
  rw [b64index_b64char (by omega), b64index_b64char (by omega),
    b64index_b64char (by omega), b64index_b64char (by omega)]
  simp only [List.cons.injEq, and_true]
  refine ⟨by omega, by omega, by omega⟩

/-- C4.  Round-trip: decoding the encoder's output returns the input
byte sequence, for every sequence of bytes, including lengths that are
not multiples of 3 and the empty sequence. -/
theorem C4_encode_decode_round_trip (l : List Nat) (h : ∀ b ∈ l, b < 256) :
    base64_decode (base64_encode l) = l := by
  induction l using threeStepInduction with
  | h0 => decide
  | h1 b0 =>
    have hb0 : b0 < 256 := h b0 (by simp)
    have e0 : b0 % 256 = b0 := Nat.mod_eq_of_lt hb0
    unfold base64_encode base64_decode
    rw [e0]
    rw [show [b64char (b0 / 4), b64char (b0 % 4 * 16), '=', '='].takeWhile b64keep
        = [b64char (b0 / 4), b64char (b0 % 4 * 16)] from by
      simp [List.takeWhile_cons, b64keep_b64char (show b0 / 4 < 64 by omega),
        b64keep_b64char (show b0 % 4 * 16 < 64 by omega), b64keep_pad]]
    show decodeTail [b64char (b0 / 4), b64char (b0 % 4 * 16)] = [b0]
    rw [decodeTail_two, b64index_b64char (show b0 / 4 < 64 by omega),
      b64index_b64char (show b0 % 4 * 16 < 64 by omega)]
    simp only [List.cons.injEq, and_true]
    omega
  | h2 b0 b1 =>
    have hb0 : b0 < 256 := h b0 (by simp)
    have hb1 : b1 < 256 := h b1 (by simp)
    have e0 : b0 % 256 = b0 := Nat.mod_eq_of_lt hb0
    have e1 : b1 % 256 = b1 := Nat.mod_eq_of_lt hb1
    unfold base64_encode base64_decode
    rw [e0, e1]
    rw [show [b64char (b0 / 4), b64char (b0 % 4 * 16 + b1 / 16),
        b64char (b1 % 16 * 4), '='].takeWhile b64keep
        = [b64char (b0 / 4), b64char (b0 % 4 * 16 + b1 / 16),
           b64char (b1 % 16 * 4)] from by
      simp [List.takeWhile_cons, b64keep_b64char (show b0 / 4 < 64 by omega),
        b64keep_b64char (show b0 % 4 * 16 + b1 / 16 < 64 by omega),
        b64keep_b64char (show b1 % 16 * 4 < 64 by omega), b64keep_pad]]
    show decodeTail [b64char (b0 / 4), b64char (b0 % 4 * 16 + b1 / 16),
      b64char (b1 % 16 * 4)] = [b0, b1]
    rw [decodeTail_three, b64index_b64char (show b0 / 4 < 64 by omega),
      b64index_b64char (show b0 % 4 * 16 + b1 / 16 < 64 by omega),
      b64index_b64char (show b1 % 16 * 4 < 64 by omega)]
    simp only [List.cons.injEq, and_true]
    refine ⟨by omega, by omega⟩
  | h3 b0 b1 b2 rest ih =>
    have hb0 : b0 < 256 := h b0 (by simp)
    have hb1 : b1 < 256 := h b1 (by simp)
    have hb2 : b2 < 256 := h b2 (by simp)
    have e0 : b0 % 256 = b0 := Nat.mod_eq_of_lt hb0
    have e1 : b1 % 256 = b1 := Nat.mod_eq_of_lt hb1
    have e2 : b2 % 256 = b2 := Nat.mod_eq_of_lt hb2
    have hrest : base64_decode (base64_encode rest) = rest :=
      ih fun b hb => h b (by simp [hb])
    show base64_decode (encodeGroup (b0 % 256) (b1 % 256) (b2 % 256)
      ++ base64_encode rest) = b0 :: b1 :: b2 :: rest
    rw [e0, e1, e2]
    unfold base64_decode
    rw [takeWhile_append_all (base64_encode rest) (by
      intro x hx
      unfold encodeGroup at hx
      simp only [List.mem_cons, List.not_mem_nil, or_false] at hx
      rcases hx with hx | hx | hx | hx <;> subst hx
      · exact b64keep_b64char (by omega)
      · exact b64keep_b64char (by omega)
      · exact b64keep_b64char (by omega)
      · exact b64keep_b64char (by omega))]
    show decodeGroups (b64char (b0 / 4) :: b64char (b0 % 4 * 16 + b1 / 16)
      :: b64char (b1 % 16 * 4 + b2 / 64) :: b64char (b2 % 64)
      :: (base64_encode rest).takeWhile b64keep) = b0 :: b1 :: b2 :: rest
    rw [decodeGroups_cons4, decodeQuad_encodeGroup hb0 hb1 hb2]
    unfold base64_decode at hrest
    rw [hrest]
    rfl

/-- Witness for C4 at the spec's known vector and at a length-2 input. -/
theorem C4_encode_decode_round_trip_witness :
    base64_decode (base64_encode [0x4D, 0x61, 0x6E]) = [0x4D, 0x61, 0x6E]
    ∧ base64_decode (base64_encode [0xFF, 0x00]) = [0xFF, 0x00] :=
  ⟨C4_encode_decode_round_trip [0x4D, 0x61, 0x6E] (by decide),
   C4_encode_decode_round_trip [0xFF, 0x00] (by decide)⟩

/-! ## Decoder length and truncation lemmas -/

theorem decodeGroups_length (l : List Char) :
    (decodeGroups l).length = 3 * (l.length / 4) + (l.length % 4 - 1) := by
  induction l using fourStepInduction with
  | h0 => rfl
  | h1 a => simp [decodeGroups, decodeTail]
  | h2 a b => simp [decodeGroups, decodeTail]
  | h3 a b c => simp [decodeGroups, decodeTail]
  | h4 a b c d t ih =>
    rw [decodeGroups_cons4, List.length_append,
      show (decodeQuad a b c d).length = 3 from rfl, ih]
    simp only [List.length_cons]
    omega

theorem base64_decode_stop (w : List Char) (c : Char) (t : List Char)
    (h : b64keep c = false) :
    base64_decode (w ++ c :: t) = base64_decode w := by
  unfold base64_decode
  rw [takeWhile_stop w c t h]

theorem base64_decode_all_keep {w : List Char} (h : ∀ c ∈ w, isBase64 c = true) :
    base64_decode w = decodeGroups w := by
  unfold base64_decode
  rw [takeWhile_all fun x hx => keep_of_isBase64 (h x hx)]

theorem getD_mem_of_lt {w : List Char} {i : Nat} (d : Char) (h : i < w.length) :
    w.getD i d ∈ w := by
  induction w generalizing i with
  | nil => simp at h
  | cons x xs ih =>
    cases i with
    | zero => simp [List.getD_cons_zero]
    | succ n =>
      rw [List.getD_cons_succ]
      exact List.mem_cons_of_mem x (ih (by simpa using h))

/-- The `size_t` subtraction of `calculateDecodedSize`, in the range
where it does not underflow. -/
theorem sizeT_sub (v p : Nat) (hp : p ≤ v) (hv : v < 18446744073709551616) :
    (v + 18446744073709551616 - p) % 18446744073709551616 = v - p := by
  omega

/-- C5 counterexample.  The claim says non-alphabet bytes are skipped, so
that decoding `"TW Fu"` equals decoding `"TWFu"`.  The decoder instead
stops at the space: it returns 1 byte instead of 3. -/
theorem C5_skipping_counterexample :
    base64_decode ("TW Fu".toList) ≠ base64_decode ("TWFu".toList)
    ∧ base64_decode ("TW Fu".toList) = [0x4D]
    ∧ base64_decode ("TWFu".toList) = [0x4D, 0x61, 0x6E] := by
  decide

/-- C5, amended.  The decoder does not skip foreign bytes: it decodes
exactly the longest run of alphabet characters at the front of the
input, abandoning everything from the first pad or foreign byte onward
(first conjunct).  On that run it works 4-characters-in/3-bytes-out, and
for a well-formed final group the pad counts are as claimed: 1 pad
yields 2 final output bytes, 2 pads yield 1 final output byte (second
and third conjuncts). -/
theorem C5_decoder_truncates_foreign_bytes :
    (∀ (w : List Char) (c : Char) (t : List Char),
      c = '=' ∨ isBase64 c = false → base64_decode (w ++ c :: t) = base64_decode w)
    ∧ (∀ w : List Char, (∀ c ∈ w, isBase64 c = true) → w.length % 4 = 3 →
        (base64_decode (w ++ ['='])).length = 3 * (w.length / 4) + 2)
    ∧ (∀ w : List Char, (∀ c ∈ w, isBase64 c = true) → w.length % 4 = 2 →
        (base64_decode (w ++ ['=', '='])).length = 3 * (w.length / 4) + 1) := by
  refine ⟨?_, ?_, ?_⟩
  · intro w c t h
    apply base64_decode_stop
    rcases h with h | h
    · subst h; exact b64keep_pad
    · simp [b64keep, h]
  · intro w hw hm
    rw [show w ++ ['='] = w ++ '=' :: [] from rfl,
      base64_decode_stop w '=' [] b64keep_pad, base64_decode_all_keep hw,
      decodeGroups_length]
    omega
  · intro w hw hm
    rw [show w ++ ['=', '='] = w ++ '=' :: ['='] from rfl,
      base64_decode_stop w '=' ['='] b64keep_pad, base64_decode_all_keep hw,
      decodeGroups_length]
    omega

/-- Witness for the amended C5 at concrete inputs. -/
theorem C5_decoder_truncates_foreign_bytes_witness :
    base64_decode ("TW".toList ++ ' ' :: "Fu".toList) = base64_decode ("TW".toList)
    ∧ (base64_decode ("TWE".toList ++ ['='])).length =
        3 * ("TWE".toList.length / 4) + 2
    ∧ (base64_decode ("TQ".toList ++ ['=', '='])).length =
        3 * ("TQ".toList.length / 4) + 1 :=
  ⟨C5_decoder_truncates_foreign_bytes.1 ("TW".toList) ' ' "Fu".toList (by decide),
   C5_decoder_truncates_foreign_bytes.2.1 ("TWE".toList) (by decide) (by decide),
   C5_decoder_truncates_foreign_bytes.2.2 ("TQ".toList) (by decide) (by decide)⟩

/-- C6 counterexample.  For the input `"a "` (one alphabet character,
then a space) the pre-allocation estimate is `floor(2*3/4) - 0 = 1`,
but the decoder stops at the space with only one buffered character and
writes 0 bytes. -/
theorem C6_estimate_mismatch :
    calculateDecodedSize ("a ".toList) ≠ (base64_decode ("a ".toList)).length
    ∧ calculateDecodedSize ("a ".toList) = 1
    ∧ (base64_decode ("a ".toList)).length = 0 := by
  decide

/-- C6, amended.  The estimate `floor(len*3/4) - padding` exactly
matches the number of bytes the decoder writes for inputs made of
alphabet characters followed by correct final padding: any pure-alphabet
input (no padding, any length), and an alphabet body followed by one pad
when the body length is 3 mod 4 or by two pads when it is 2 mod 4 — in
particular for every output of `base64_encode`.  For arbitrary inputs
the match fails (see the counterexample).  The length bound renders the
`size_t` range of `strlen`. -/
theorem C6_estimate_exact_on_padded_alphabet :
    (∀ w : List Char, (∀ c ∈ w, isBase64 c = true) → w.length < 2 ^ 64 →
      calculateDecodedSize w = (base64_decode w).length)
    ∧ (∀ w : List Char, (∀ c ∈ w, isBase64 c = true) → w.length % 4 = 3 →
        w.length + 1 < 2 ^ 64 →
        calculateDecodedSize (w ++ ['=']) = (base64_decode (w ++ ['='])).length)
    ∧ (∀ w : List Char, (∀ c ∈ w, isBase64 c = true) → w.length % 4 = 2 →
        w.length + 2 < 2 ^ 64 →
        calculateDecodedSize (w ++ ['=', '=']) =
          (base64_decode (w ++ ['=', '='])).length) := by
  have hpadchar : ∀ (w : List Char), (∀ c ∈ w, isBase64 c = true) →
      ∀ i < w.length, ¬ w.getD i nulChar = '=' := by
    intro w hw i hi heq
    have hmem := getD_mem_of_lt nulChar hi
    rw [heq] at hmem
    exact absurd (hw '=' hmem) (by decide)
  refine ⟨?_, ?_, ?_⟩
  · intro w hw hlen
    rw [base64_decode_all_keep hw, decodeGroups_length]
    unfold calculateDecodedSize
    rw [if_neg fun hc => hpadchar w hw (w.length - 1)
        (by have h1 := hc.1; omega) hc.2,
      if_neg fun hc => hpadchar w hw (w.length - 2)
        (by have h1 := hc.1; omega) hc.2,
      sizeT_sub (w.length * 3 / 4) (0 + 0) (by omega) (by omega)]
    omega
  · intro w hw hm hlen
    rw [show w ++ ['='] = w ++ '=' :: [] from rfl,
      base64_decode_stop w '=' [] b64keep_pad, base64_decode_all_keep hw,
      decodeGroups_length]
    unfold calculateDecodedSize
    have hL : (w ++ '=' :: []).length = w.length + 1 := by simp
    rw [hL]
    rw [if_pos ⟨by omega, by
      rw [show w.length + 1 - 1 = w.length from rfl]
      rw [List.getD_append_right w ('=' :: []) nulChar w.length (Nat.le_refl _)]
      simp⟩]
    rw [if_neg fun hc => by
      have h2 : w.length + 1 - 2 < w.length := by omega
      rw [List.getD_append w ('=' :: []) nulChar _ h2] at hc
      exact hpadchar w hw _ h2 hc.2]
    rw [sizeT_sub ((w.length + 1) * 3 / 4) (1 + 0) (by omega) (by omega)]
    omega
  · intro w hw hm hlen
    rw [show w ++ ['=', '='] = w ++ '=' :: ['='] from rfl,
      base64_decode_stop w '=' ['='] b64keep_pad, base64_decode_all_keep hw,
      decodeGroups_length]
    unfold calculateDecodedSize
    have hL : (w ++ '=' :: ['=']).length = w.length + 2 := by simp
    rw [hL]
    rw [if_pos ⟨by omega, by
      rw [show w.length + 2 - 1 = w.length + 1 from rfl]
      rw [List.getD_append_right w ('=' :: ['=']) nulChar (w.length + 1) (by omega)]
      simp⟩]
    rw [if_pos ⟨by omega, by
      rw [show w.length + 2 - 2 = w.length from by omega]
      rw [List.getD_append_right w ('=' :: ['=']) nulChar w.length (Nat.le_refl _)]
      simp⟩]
    rw [sizeT_sub ((w.length + 2) * 3 / 4) (1 + 1) (by omega) (by omega)]
    omega

/-- Witness for the amended C6 at concrete inputs. -/
theorem C6_estimate_exact_on_padded_alphabet_witness :
    calculateDecodedSize ("TWFuT".toList) = (base64_decode ("TWFuT".toList)).length
    ∧ calculateDecodedSize ("TWE".toList ++ ['=']) =
        (base64_decode ("TWE".toList ++ ['='])).length
    ∧ calculateDecodedSize ("TQ".toList ++ ['=', '=']) =
        (base64_decode ("TQ".toList ++ ['=', '='])).length :=
  ⟨C6_estimate_exact_on_padded_alphabet.1 ("TWFuT".toList) (by decide) (by norm_num),
   C6_estimate_exact_on_padded_alphabet.2.1 ("TWE".toList) (by decide) (by decide)
     (by norm_num),
   C6_estimate_exact_on_padded_alphabet.2.2 ("TQ".toList) (by decide) (by decide)
     (by norm_num)⟩

/-- C7.  For the input `"zzz=="` — whose alphabet-character count is 3,
not a multiple of 4, so the claim applies — the decoder writes 2 bytes
while the pre-allocation estimate used by `textToSpeech` to size the
`malloc` is `floor(5*3/4) - 2 = 1`: the decoder overruns the estimate,
writing past the allocated buffer. -/
theorem C7_decoder_overruns_estimate :
    ("zzz==".toList.filter (fun c => isBase64 c)).length % 4 ≠ 0
    ∧ calculateDecodedSize ("zzz==".toList) = 1
    ∧ (base64_decode ("zzz==".toList)).length = 2 := by
  decide

/-! ## Pipeline state machine (src/main.cpp lines 77-98, 133-261, 587-744, 863-867)

The orchestrator is single-threaded: one invocation of `loop` is one
tick, and the cloud calls issued from within a tick run to completion
inside it.  A tick's environment inputs (current `millis()`, the two
button samples around the 50ms debounce delay, whether `malloc`
succeeds, and the three stage responses) are collected in `TickInput`.

`Machine` carries the global mutable state the claims are about:
`currentState`, `errorMessage`, the static locals `stateEnterTime` and
`recordStartTime` of `loop`, `audioBuffer` (`none` renders the null
pointer), and `isPlayingAudio`.  Two ghost counters instrument events
that no single field exposes: `frees` counts executed
`free(audioBuffer)` calls and `accepts` counts accepted capture
triggers (executions of the branch at lines 226-229).

Time values (`millis()` and the `unsigned long` statics) are 32-bit on
this platform; their additions and subtractions are rendered modulo
`2 ^ 32`.  The config-portal escape hatch (long press, lines 143-158)
and all display/serial/SD output are external collaborators and are not
modelled; no claim depends on them. -/

inductive CState where
  | STATE_INIT
  | STATE_WIFI_CONFIG
  | STATE_WIFI_CONNECTING
  | STATE_WIFI_CONNECTED
  | STATE_READY
  | STATE_RECORDING
  | STATE_PROCESSING_SPEECH
  | STATE_QUERYING_AI
  | STATE_PROCESSING_TTS
  | STATE_PLAYING
  | STATE_ERROR
  deriving DecidableEq

/-- The observable outcome of one HTTP stage call: the status code, the
`deserializeJson` outcome, and whether the stage's expected field is
present (`results` as array / `candidates` as array / `audioContent` as
string). -/
structure StageResponse where
  httpCode : Int
  parseError : Bool
  parseMsg : List Char
  hasField : Bool
  deriving DecidableEq

structure TickInput where
  now : Nat
  wifiConnected : Bool
  buttonLow : Bool
  buttonLow2 : Bool
  mallocOk : Bool
  speechResp : StageResponse
  gemResp : StageResponse
  ttsResp : StageResponse
  deriving DecidableEq

structure Machine where
  currentState : CState
  errorMessage : List Char
  stateEnterTime : Nat
  recordStartTime : Nat
  audioBuffer : Option Nat
  isPlayingAudio : Bool
  frees : Nat
  accepts : Nat
  deriving DecidableEq

def HTTP_CODE_OK : Int := 200

def SAMPLE_RATE : Nat := 16000

def RECORD_DURATION : Nat := 5000

/-- The `unsigned long` modulus. -/
def U32 : Nat := 4294967296

/-- Fault entry `setError` (lines 863-867): records the message and moves to
`STATE_ERROR`.  It does not touch `stateEnterTime`, which is a static
local of `loop`. -/
def setError (m : Machine) (msg : List Char) : Machine :=
  { m with errorMessage := msg, currentState := CState.STATE_ERROR }

/-- Capture start `startRecording` (lines 587-602): allocates
`SAMPLE_RATE * RECORD_DURATION / 1000 * 4` bytes; on allocation failure
sets the `Memory Error` fault and returns with `audioBuffer` null. -/
def startRecording (m : Machine) (mallocOk : Bool) : Machine :=
  if mallocOk then
    { m with audioBuffer := some (SAMPLE_RATE * RECORD_DURATION / 1000 * 4) }
  else
    setError m ("Memory Error".toList)

/-- Synthesize stage `textToSpeech` (lines 709-744), state-level behaviour: on HTTP 200
with a parse error it faults; on HTTP 200 with `audioContent` present it
decodes, enters `STATE_PLAYING` and plays (playback completes inside the
call, leaving `isPlayingAudio` false); on HTTP 200 with well-formed JSON
but no `audioContent` there is no `else` branch — the machine is left
unchanged; on any other status it faults with the code in the message. -/
def textToSpeech (m : Machine) (resp : StageResponse) : Machine :=
  if resp.httpCode = HTTP_CODE_OK then
    if !resp.parseError && resp.hasField then
      { m with currentState := CState.STATE_PLAYING, isPlayingAudio := false }
    else if resp.parseError then
      setError m ("JSON Parse Err: ".toList ++ resp.parseMsg)
    else m
  else
    setError m ("TTS API: ".toList ++ (toString resp.httpCode).toList)

/-- Infer stage `queryGemini` (lines 677-707), state-level behaviour: on HTTP 200
with `candidates` present it enters `STATE_PROCESSING_TTS` and calls
`textToSpeech`; on a parse error it faults; on well-formed JSON without
`candidates` there is no `else` branch — the machine is left unchanged;
on any other status it faults. -/
def queryGemini (m : Machine) (gresp tresp : StageResponse) : Machine :=
  if gresp.httpCode = HTTP_CODE_OK then
    if !gresp.parseError && gresp.hasField then
      textToSpeech { m with currentState := CState.STATE_PROCESSING_TTS } tresp
    else if gresp.parseError then
      setError m ("JSON Parse Err: ".toList ++ gresp.parseMsg)
    else m
  else
    setError m ("Gemini API: ".toList ++ (toString gresp.httpCode).toList)

/-- Recognize stage `processSpeech` (lines 616-675): a null or empty buffer faults with
`No audio data`; otherwise the clip is encoded, saved, and the buffer is
freed and nulled (lines 643-644, counted by the ghost field `frees`)
before the stage call; then on HTTP 200 with a transcript it enters
`STATE_QUERYING_AI` and calls `queryGemini`; a parse error, a missing
`results` array, or a non-200 status each fault. -/
def processSpeech (m : Machine) (sresp gresp tresp : StageResponse) : Machine :=
  match m.audioBuffer with
  | none => setError m ("No audio data".toList)
  | some sz =>
    if sz = 0 then setError m ("No audio data".toList)
    else
      processSpeechFreed { m with audioBuffer := none, frees := m.frees + 1 }
        sresp gresp tresp

where
  processSpeechFreed (m : Machine) (sresp gresp tresp : StageResponse) : Machine :=
    if sresp.httpCode = HTTP_CODE_OK then
      if !sresp.parseError && sresp.hasField then
        queryGemini { m with currentState := CState.STATE_QUERYING_AI } gresp tresp
      else if sresp.parseError then
        setError m ("JSON Parse Err: ".toList ++ sresp.parseMsg)
      else setError m ("No transcription".toList)
    else
      setError m ("Speech API: ".toList ++ (toString sresp.httpCode).toList)

/-- One invocation of `loop` (lines 133-261), from the `switch` on
`currentState`.  `STATE_WIFI_CONFIG` is the early `server.handleClient`
return; `STATE_INIT` and the three in-flight stage states have empty
cases.  The `STATE_WIFI_CONNECTED` case performs only external I/O (the
web-audio sample) before entering `STATE_READY`.  In `STATE_READY` the
trigger is accepted when the button reads low at both samples of the
50ms debounce re-check (lines 223-225). -/
def loopTick (m : Machine) (inp : TickInput) : Machine :=
  match m.currentState with
  | CState.STATE_INIT => m
  | CState.STATE_WIFI_CONFIG => m
  | CState.STATE_WIFI_CONNECTING =>
    if inp.wifiConnected then
      { m with currentState := CState.STATE_WIFI_CONNECTED,
               stateEnterTime := inp.now }
    else if inp.now > (m.stateEnterTime + 30000) % U32 then
      { m with currentState := CState.STATE_WIFI_CONFIG }
    else m
  | CState.STATE_WIFI_CONNECTED =>
    if inp.now > (m.stateEnterTime + 2000) % U32 then
      { m with currentState := CState.STATE_READY }
    else m
  | CState.STATE_READY =>
    if inp.buttonLow && inp.buttonLow2 then
      startRecording { m with currentState := CState.STATE_RECORDING,
                              recordStartTime := inp.now,
                              accepts := m.accepts + 1 } inp.mallocOk
    else m
  | CState.STATE_RECORDING =>
    if (inp.now + U32 - m.recordStartTime) % U32 ≥ RECORD_DURATION then
      processSpeech { m with currentState := CState.STATE_PROCESSING_SPEECH }
        inp.speechResp inp.gemResp inp.ttsResp
    else m
  | CState.STATE_PROCESSING_SPEECH => m
  | CState.STATE_QUERYING_AI => m
  | CState.STATE_PROCESSING_TTS => m
  | CState.STATE_PLAYING =>
    if !m.isPlayingAudio then { m with currentState := CState.STATE_READY }
    else m
  | CState.STATE_ERROR =>
    if inp.now > (m.stateEnterTime + 5000) % U32 then
      { m with currentState := CState.STATE_READY }
    else m

def runTrace (m : Machine) : List TickInput → Machine
  | [] => m
  | i :: rest => runTrace (loopTick m i) rest

/-! ## Helper lemmas for the state machine -/

theorem setError_accepts (m : Machine) (msg : List Char) :
    (setError m msg).accepts = m.accepts := rfl

theorem setError_frees (m : Machine) (msg : List Char) :
    (setError m msg).frees = m.frees := rfl

theorem setError_buffer (m : Machine) (msg : List Char) :
    (setError m msg).audioBuffer = m.audioBuffer := rfl

theorem setError_state (m : Machine) (msg : List Char) :
    (setError m msg).currentState = CState.STATE_ERROR := rfl

theorem textToSpeech_accepts (m : Machine) (r : StageResponse) :
    (textToSpeech m r).accepts = m.accepts := by
  unfold textToSpeech
  split_ifs <;> rfl

theorem textToSpeech_frees (m : Machine) (r : StageResponse) :
    (textToSpeech m r).frees = m.frees := by
  unfold textToSpeech
  split_ifs <;> rfl

theorem textToSpeech_buffer (m : Machine) (r : StageResponse) :
    (textToSpeech m r).audioBuffer = m.audioBuffer := by
  unfold textToSpeech
  split_ifs <;> rfl

theorem textToSpeech_state_ne (m : Machine) (r : StageResponse)
    (h : m.currentState ≠ CState.STATE_RECORDING) :
    (textToSpeech m r).currentState ≠ CState.STATE_RECORDING := by
  unfold textToSpeech
  split_ifs <;> first | exact h | simp [setError]

theorem queryGemini_accepts (m : Machine) (g t : StageResponse) :
    (queryGemini m g t).accepts = m.accepts := by
  unfold queryGemini
  split_ifs <;> first | rw [textToSpeech_accepts] | rfl

theorem queryGemini_frees (m : Machine) (g t : StageResponse) :
    (queryGemini m g t).frees = m.frees := by
  unfold queryGemini
  split_ifs <;> first | rw [textToSpeech_frees] | rfl

theorem queryGemini_buffer (m : Machine) (g t : StageResponse) :
    (queryGemini m g t).audioBuffer = m.audioBuffer := by
  unfold queryGemini
  split_ifs <;> first | rw [textToSpeech_buffer] | rfl

theorem queryGemini_state_ne (m : Machine) (g t : StageResponse)
    (h : m.currentState ≠ CState.STATE_RECORDING) :
    (queryGemini m g t).currentState ≠ CState.STATE_RECORDING := by
  unfold queryGemini
  split_ifs <;> first
    | exact textToSpeech_state_ne _ _ (by simp)
    | exact h
    | simp [setError]

theorem processSpeechFreed_accepts (m : Machine) (s g t : StageResponse) :
    (processSpeech.processSpeechFreed m s g t).accepts = m.accepts := by
  unfold processSpeech.processSpeechFreed
  split_ifs <;> first | rw [queryGemini_accepts] | rfl

theorem processSpeechFreed_frees (m : Machine) (s g t : StageResponse) :
    (processSpeech.processSpeechFreed m s g t).frees = m.frees := by
  unfold processSpeech.processSpeechFreed
  split_ifs <;> first | rw [queryGemini_frees] | rfl

theorem processSpeechFreed_buffer (m : Machine) (s g t : StageResponse) :
    (processSpeech.processSpeechFreed m s g t).audioBuffer = m.audioBuffer := by
  unfold processSpeech.processSpeechFreed
  split_ifs <;> first | rw [queryGemini_buffer] | rfl

theorem processSpeechFreed_state_ne (m : Machine) (s g t : StageResponse)
    (h : m.currentState ≠ CState.STATE_RECORDING) :
    (processSpeech.processSpeechFreed m s g t).currentState ≠
      CState.STATE_RECORDING := by
  unfold processSpeech.processSpeechFreed
  split_ifs <;> first
    | exact queryGemini_state_ne _ _ _ (by simp)
    | simp [setError]

theorem processSpeech_accepts (m : Machine) (s g t : StageResponse) :
    (processSpeech m s g t).accepts = m.accepts := by
  unfold processSpeech
  cases hab : m.audioBuffer with
  | none => rfl
  | some sz =>
    dsimp only
    split_ifs <;> first | rw [processSpeechFreed_accepts] | rfl

/-- After `processSpeech` on a machine holding a non-empty clip, the
buffer has been freed and nulled, exactly one free has been recorded,
and the machine is no longer in the recording state. -/
theorem processSpeech_releases (m : Machine) (s g t : StageResponse) (sz : Nat)
    (hab : m.audioBuffer = some sz) (hsz : sz ≠ 0)
    (hm : m.currentState ≠ CState.STATE_RECORDING) :
    (processSpeech m s g t).audioBuffer = none
    ∧ (processSpeech m s g t).frees = m.frees + 1
    ∧ (processSpeech m s g t).currentState ≠ CState.STATE_RECORDING := by
  unfold processSpeech
  rw [hab]
  simp only [hsz, if_false]
  refine ⟨?_, ?_, ?_⟩
  · rw [processSpeechFreed_buffer]
  · rw [processSpeechFreed_frees]
  · exact processSpeechFreed_state_ne _ _ _ _ (by
      intro hc
      exact hm hc)

/-! ## Concrete machines and tick inputs used by the claims -/

/-- A machine idling in `STATE_READY`, with WiFi having connected at
`millis() = 1000` (the only assignment to `stateEnterTime`, line 169). -/
def mReadyIdle : Machine :=
  { currentState := CState.STATE_READY, errorMessage := [],
    stateEnterTime := 1000, recordStartTime := 0, audioBuffer := none,
    isPlayingAudio := false, frees := 0, accepts := 0 }

/-- The machine as `processSpeech` leaves it when handing off to the
infer stage: in `STATE_QUERYING_AI`, clip already freed. -/
def mQueryingAI : Machine :=
  { currentState := CState.STATE_QUERYING_AI, errorMessage := [],
    stateEnterTime := 1000, recordStartTime := 10000, audioBuffer := none,
    isPlayingAudio := false, frees := 1, accepts := 1 }

/-- The machine as `queryGemini` leaves it when handing off to the
synthesize stage. -/
def mProcessingTTS : Machine :=
  { currentState := CState.STATE_PROCESSING_TTS, errorMessage := [],
    stateEnterTime := 1000, recordStartTime := 10000, audioBuffer := none,
    isPlayingAudio := false, frees := 1, accepts := 1 }

/-- A successful stage response. -/
def okResp : StageResponse :=
  { httpCode := 200, parseError := false, parseMsg := [], hasField := true }

/-- HTTP 200 with a well-formed JSON body in which the stage's expected
field (`candidates` array / `audioContent`) is absent or empty. -/
def emptyBodyResp : StageResponse :=
  { httpCode := 200, parseError := false, parseMsg := [], hasField := false }

/-- An HTTP 500 failure response. -/
def http500Resp : StageResponse :=
  { httpCode := 500, parseError := false, parseMsg := [], hasField := false }

/-- C2.  The claim fails on the code.  `processSpeech` faults on every
failure, and non-200 statuses fault in every stage (last conjunct shows
HTTP 500 at the infer stage), but `queryGemini` and `textToSpeech` have
no `else` for a well-formed body whose expected field is missing: with
HTTP 200 and a body such as `{}` the machine is returned completely
unchanged — no `FaultRecord` is set, no transition to `Fault` happens,
and the orchestrator stays in the in-flight stage state
(`STATE_QUERYING_AI` / `STATE_PROCESSING_TTS`) forever, since `loop`
has empty cases for those states. -/
theorem C2_missing_fault_on_empty_body :
    queryGemini mQueryingAI emptyBodyResp okResp = mQueryingAI
    ∧ (queryGemini mQueryingAI emptyBodyResp okResp).currentState =
        CState.STATE_QUERYING_AI
    ∧ (queryGemini mQueryingAI emptyBodyResp okResp).errorMessage = []
    ∧ textToSpeech mProcessingTTS emptyBodyResp = mProcessingTTS
    ∧ loopTick mQueryingAI
        { now := 99999, wifiConnected := false, buttonLow := false,
          buttonLow2 := false, mallocOk := true, speechResp := okResp,
          gemResp := okResp, ttsResp := okResp } = mQueryingAI
    ∧ (queryGemini mQueryingAI http500Resp okResp).currentState =
        CState.STATE_ERROR := by
  decide

/-- C3.  The claim fails on the code.  `setError` (and nothing else on a
fault entry) never writes `stateEnterTime`; the `STATE_ERROR` case of
`loop` compares `millis()` against the stale `stateEnterTime` set at
WiFi-connect time (here 1000).  A fault entered at `millis() = 10000` is
already left at the very next tick, 10010 — inside the claimed
`[T, T+5000)` dwell window: the recovery time depends on the stale
timestamp, not on the fault entry time.  (The code's own comment at line
254 says the error should be shown for 5 seconds.) -/
theorem C3_stale_fault_dwell :
    (setError mReadyIdle ("Speech API: 500".toList)).currentState =
      CState.STATE_ERROR
    ∧ (setError mReadyIdle ("Speech API: 500".toList)).stateEnterTime = 1000
    ∧ (loopTick (setError mReadyIdle ("Speech API: 500".toList))
        { now := 10010, wifiConnected := false, buttonLow := false,
          buttonLow2 := false, mallocOk := true, speechResp := okResp,
          gemResp := okResp, ttsResp := okResp }).currentState =
        CState.STATE_READY := by
  decide

/-- Trigger asserted (both debounce samples low) while `malloc` fails. -/
def pressMallocFailTick : TickInput :=
  { now := 10000, wifiConnected := false, buttonLow := true,
    buttonLow2 := true, mallocOk := false, speechResp := okResp,
    gemResp := okResp, ttsResp := okResp }

/-- No input asserted. -/
def idleTick : TickInput :=
  { now := 10060, wifiConnected := false, buttonLow := false,
    buttonLow2 := false, mallocOk := true, speechResp := okResp,
    gemResp := okResp, ttsResp := okResp }

/-- Trigger asserted again 70ms after the first, `malloc` succeeding. -/
def pressAgainTick : TickInput :=
  { now := 10070, wifiConnected := false, buttonLow := true,
    buttonLow2 := true, mallocOk := true, speechResp := okResp,
    gemResp := okResp, ttsResp := okResp }

/-- C8 counterexample.  No 200ms lockout exists in the code.  From
`STATE_READY` at `millis() = 10000` a trigger is accepted (ghost counter
`accepts` goes to 1) but `malloc` fails, so the machine faults; at 10060
the stale fault-dwell comparison (`stateEnterTime = 1000`, see C3)
returns it to `STATE_READY` immediately; at 10070 a second trigger is
accepted (`accepts = 2`, `recordStartTime = 10070`).  Two triggers
asserted 70ms apart — within 100ms — thus produce two accepted
capture transitions, not one. -/
theorem C8_two_accepts_within_100ms :
    (loopTick mReadyIdle pressMallocFailTick).accepts = 1
    ∧ (loopTick mReadyIdle pressMallocFailTick).recordStartTime = 10000
    ∧ (loopTick mReadyIdle pressMallocFailTick).currentState =
        CState.STATE_ERROR
    ∧ (runTrace mReadyIdle [pressMallocFailTick, idleTick]).currentState =
        CState.STATE_READY
    ∧ (runTrace mReadyIdle [pressMallocFailTick, idleTick, pressAgainTick]).accepts
        = 2
    ∧ (runTrace mReadyIdle
        [pressMallocFailTick, idleTick, pressAgainTick]).recordStartTime = 10070
    ∧ 10070 - 10000 < 100 := by
  decide

/-- C8, amended.  The code's debounce is a 50ms double-sample, not a
200ms lockout: a capture trigger is accepted exactly when the machine is
in `STATE_READY` and the input reads asserted at both samples (first
conjunct); no other state accepts a trigger (second conjunct); and after
an acceptance whose buffer allocation succeeds the machine sits in
`STATE_RECORDING`, ignoring every input, at every tick within
`RECORD_DURATION` (5000ms) of the acceptance (third conjunct) — so in
fault-free operation consecutive acceptances are at least 5000ms apart,
while the allocation-failure path can accept twice within 100ms (see the
counterexample). -/
theorem C8_debounce_is_double_sample :
    (∀ (m : Machine) (inp : TickInput), m.currentState = CState.STATE_READY →
      ((loopTick m inp).accepts = m.accepts + 1 ↔
        inp.buttonLow = true ∧ inp.buttonLow2 = true))
    ∧ (∀ (m : Machine) (inp : TickInput),
        m.currentState ≠ CState.STATE_READY →
        (loopTick m inp).accepts = m.accepts)
    ∧ (∀ (m : Machine) (l : List TickInput),
        m.currentState = CState.STATE_RECORDING →
        (∀ inp ∈ l, (inp.now + U32 - m.recordStartTime) % U32 < RECORD_DURATION) →
        runTrace m l = m) := by
  refine ⟨?_, ?_, ?_⟩
  · intro m inp h
    unfold loopTick
    rw [h]
    cases hb1 : inp.buttonLow <;> cases hb2 : inp.buttonLow2 <;>
      cases hmk : inp.mallocOk <;>
        simp [startRecording, setError, hmk]
  · intro m inp h
    unfold loopTick
    cases hcs : m.currentState
    case STATE_READY => exact absurd hcs h
    all_goals dsimp only
    all_goals split_ifs <;> first | rfl | rw [processSpeech_accepts]
  · intro m l hs hlt
    induction l generalizing m with
    | nil => rfl
    | cons i rest ih =>
      have hcond := hlt i (by simp)
      have hstep : loopTick m i = m := by
        unfold loopTick
        rw [hs]
        dsimp only
        split_ifs with hgt
        · exact absurd hcond (by omega)
        · rfl
      show runTrace (loopTick m i) rest = m
      rw [hstep]
      exact ih m hs fun inp hinp => hlt inp (by simp [hinp])

/-- A machine in `STATE_RECORDING` with the clip allocated at
`millis() = 10000`. -/
def mRecording : Machine :=
  { currentState := CState.STATE_RECORDING, errorMessage := [],
    stateEnterTime := 1000, recordStartTime := 10000,
    audioBuffer := some (SAMPLE_RATE * RECORD_DURATION / 1000 * 4),
    isPlayingAudio := false, frees := 0, accepts := 1 }

/-- A tick 2000ms into the fixed 5000ms capture. -/
def midCaptureTick : TickInput :=
  { now := 12000, wifiConnected := false, buttonLow := true,
    buttonLow2 := true, mallocOk := true, speechResp := okResp,
    gemResp := okResp, ttsResp := okResp }

/-- Witness for the amended C8 at concrete inputs. -/
theorem C8_debounce_is_double_sample_witness :
    ((loopTick mReadyIdle pressAgainTick).accepts = mReadyIdle.accepts + 1 ↔
      pressAgainTick.buttonLow = true ∧ pressAgainTick.buttonLow2 = true)
    ∧ (loopTick mRecording midCaptureTick).accepts = mRecording.accepts
    ∧ runTrace mRecording [midCaptureTick] = mRecording :=
  ⟨C8_debounce_is_double_sample.1 mReadyIdle pressAgainTick rfl,
   C8_debounce_is_double_sample.2.1 mRecording midCaptureTick (by decide),
   C8_debounce_is_double_sample.2.2 mRecording [midCaptureTick] rfl
     (by decide)⟩

/-! ## C9: the clip lifecycle invariant -/

/-- The invariant of claim C9: the audio clip handle is non-null exactly
while the machine is capturing — between a successful `startRecording`
and the free/null at the start of `processSpeech` (the hand-off to the
recognize stage), both of which happen inside the `STATE_RECORDING`
tick that ends the capture. -/
def bufInvariant (m : Machine) : Prop :=
  (m.currentState = CState.STATE_RECORDING →
    m.audioBuffer = some (SAMPLE_RATE * RECORD_DURATION / 1000 * 4))
  ∧ (m.currentState ≠ CState.STATE_RECORDING → m.audioBuffer = none)

/-- C9.  The invariant is preserved by every tick from every machine
satisfying it, and each tick either performs no free at all or performs
exactly one free — and a free happens only from the capture state, on a
non-null handle, and leaves the handle null.  Hence no reachable
execution frees a clip twice (a second free would need a non-null
handle, but the handle is null from the free until the next successful
capture start), and the buffer is never held outside the
capture-to-hand-off window. -/
theorem C9_clip_release_exactly_once :
    ∀ (m : Machine) (inp : TickInput), bufInvariant m →
      bufInvariant (loopTick m inp)
      ∧ ((loopTick m inp).frees = m.frees
         ∨ ((loopTick m inp).frees = m.frees + 1
            ∧ m.currentState = CState.STATE_RECORDING
            ∧ m.audioBuffer ≠ none
            ∧ (loopTick m inp).audioBuffer = none)) := by
  intro m inp hinv
  obtain ⟨h1, h2⟩ := hinv
  unfold loopTick
  cases hcs : m.currentState
  case STATE_RECORDING =>
    have hab : m.audioBuffer = some (SAMPLE_RATE * RECORD_DURATION / 1000 * 4) :=
      h1 hcs
    dsimp only
    split_ifs with hgt
    · have hrel := processSpeech_releases
        { m with currentState := CState.STATE_PROCESSING_SPEECH }
        inp.speechResp inp.gemResp inp.ttsResp
        (SAMPLE_RATE * RECORD_DURATION / 1000 * 4) hab (by decide) (by simp)
      refine ⟨⟨fun hc => absurd hc hrel.2.2, fun _ => hrel.1⟩,
        Or.inr ⟨hrel.2.1, rfl, by rw [hab]; simp, hrel.1⟩⟩
    · exact ⟨⟨fun _ => hab, fun hc => absurd hcs hc⟩, Or.inl rfl⟩
  case STATE_READY =>
    have hnone : m.audioBuffer = none := h2 (by rw [hcs]; simp)
    dsimp only
    split_ifs with hb
    · unfold startRecording
      cases hmk : inp.mallocOk
      · rw [if_neg (by simp)]
        exact ⟨⟨fun hc => absurd hc (by simp [setError]),
          fun _ => by simp [setError, hnone]⟩, Or.inl rfl⟩
      · rw [if_pos rfl]
        exact ⟨⟨fun _ => rfl, fun hc => absurd rfl hc⟩, Or.inl rfl⟩
    · exact ⟨⟨fun hc => absurd (hcs.symm.trans hc) (by simp),
        fun _ => hnone⟩, Or.inl rfl⟩
  all_goals
    have hne : m.currentState ≠ CState.STATE_RECORDING := by rw [hcs]; simp
  all_goals have hnone : m.audioBuffer = none := h2 hne
  all_goals dsimp only
  all_goals try
    exact ⟨⟨fun hc => absurd (hcs.symm.trans hc) (by simp),
      fun _ => hnone⟩, Or.inl rfl⟩
  all_goals split_ifs <;>
    first
      | exact ⟨⟨fun hc => absurd hc (by simp), fun _ => hnone⟩, Or.inl rfl⟩
      | exact ⟨⟨fun hc => absurd (hcs.symm.trans hc) (by simp),
          fun _ => hnone⟩, Or.inl rfl⟩

/-- A tick at which the fixed 5000ms capture duration has elapsed, so
the `STATE_RECORDING` case finalizes the clip and hands it off. -/
def endCaptureTick : TickInput :=
  { now := 15100, wifiConnected := false, buttonLow := false,
    buttonLow2 := false, mallocOk := true, speechResp := okResp,
    gemResp := okResp, ttsResp := okResp }

/-- Witness for C9 at the tick that ends a capture and releases the
clip. -/
theorem C9_clip_release_exactly_once_witness :
    bufInvariant (loopTick mRecording endCaptureTick)
    ∧ ((loopTick mRecording endCaptureTick).frees = mRecording.frees
       ∨ ((loopTick mRecording endCaptureTick).frees = mRecording.frees + 1
          ∧ mRecording.currentState = CState.STATE_RECORDING
          ∧ mRecording.audioBuffer ≠ none
          ∧ (loopTick mRecording endCaptureTick).audioBuffer = none)) :=
  C9_clip_release_exactly_once mRecording endCaptureTick
    ⟨fun _ => rfl, fun hne => absurd rfl hne⟩

/-! ## Audio container header (claim C10) -/

/-- Modelled from the spec: `src/main.cpp` contains no audio container
writer (the firmware never builds a WAV header; it only skips 44 header
bytes of a fetched file at line 194), so the 44-byte RIFF/WAVE/fmt/data
header of spec section 6 is modelled from the specification text:
bytes 0-3 `"RIFF"`, 4-7 chunkSize (LE u32, `36 + dataLength`), 8-11
`"WAVE"`, 12-15 `"fmt "`, 16-19 `16` (LE u32), 20-21 `1` (PCM, LE u16),
22-23 channel count, 24-27 sample rate (LE u32), 28-31 byte rate
(LE u32, `sampleRate * blockAlign`), 32-33 block align (LE u16,
`channels * bitsPerSample / 8`), 34-35 bits per sample (LE u16), 36-39
`"data"`, 40-43 dataLength (LE u32).  All multi-byte fields are
little-endian; u32 fields wrap at `2 ^ 32`, u16 fields at `2 ^ 16`. -/
def writeWavHeader (dataLength sampleRate bitsPerSample channels : Nat) :
    List Nat :=
  [0x52, 0x49, 0x46, 0x46,
   (36 + dataLength) % 256, (36 + dataLength) / 256 % 256,
   (36 + dataLength) / 65536 % 256, (36 + dataLength) / 16777216 % 256,
   0x57, 0x41, 0x56, 0x45,
   0x66, 0x6D, 0x74, 0x20,
   16, 0, 0, 0,
   1, 0,
   channels % 256, channels / 256 % 256,
   sampleRate % 256, sampleRate / 256 % 256,
   sampleRate / 65536 % 256, sampleRate / 16777216 % 256,
   sampleRate * (channels * (bitsPerSample / 8)) % 256,
   sampleRate * (channels * (bitsPerSample / 8)) / 256 % 256,
   sampleRate * (channels * (bitsPerSample / 8)) / 65536 % 256,
   sampleRate * (channels * (bitsPerSample / 8)) / 16777216 % 256,
   channels * (bitsPerSample / 8) % 256,
   channels * (bitsPerSample / 8) / 256 % 256,
   bitsPerSample % 256, bitsPerSample / 256 % 256,
   0x64, 0x61, 0x74, 0x61,
   dataLength % 256, dataLength / 256 % 256,
   dataLength / 65536 % 256, dataLength / 16777216 % 256]

/-- Modelled from the spec: a consumer reading back a little-endian u32
field at byte offset `off` of a written container. -/
def readLE32 (bytes : List Nat) (off : Nat) : Nat :=
  bytes.getD off 0 + bytes.getD (off + 1) 0 * 256 +
    bytes.getD (off + 2) 0 * 65536 + bytes.getD (off + 3) 0 * 16777216

/-- Modelled from the spec: a consumer reading back a little-endian u16
field at byte offset `off`. -/
def readLE16 (bytes : List Nat) (off : Nat) : Nat :=
  bytes.getD off 0 + bytes.getD (off + 1) 0 * 256

set_option maxRecDepth 4000 in
/-- C10.  Header round-trip, for the mono 16-bit configuration the
pipeline uses: the written container is exactly 44 bytes, its chunkSize
field reads back as `36 + D`, its byteRate field as
`sampleRate * blockAlign` with `blockAlign = channels * 16 / 8 = 2`, and
its dataLength field as exactly the `D` that was supplied.  The bounds
are the u32 representability of the two length-derived fields. -/
theorem C10_wav_header_round_trip (D sr : Nat) (hD : 36 + D < 4294967296)
    (hsr : 2 * sr < 4294967296) :
    (writeWavHeader D sr 16 1).length = 44
    ∧ readLE32 (writeWavHeader D sr 16 1) 4 = 36 + D
    ∧ readLE32 (writeWavHeader D sr 16 1) 28 = sr * 2
    ∧ readLE16 (writeWavHeader D sr 16 1) 32 = 2
    ∧ readLE16 (writeWavHeader D sr 16 1) 34 = 16
    ∧ readLE32 (writeWavHeader D sr 16 1) 40 = D := by
  unfold writeWavHeader readLE32 readLE16
  refine ⟨rfl, ?_, ?_, rfl, rfl, ?_⟩ <;>
    simp only [List.getD_cons_zero, List.getD_cons_succ] <;> omega

/-- Witness for C10 at `D = 160000` (five seconds of 16kHz mono 16-bit
audio) and `sr = 16000`. -/
theorem C10_wav_header_round_trip_witness :
    (writeWavHeader 160000 16000 16 1).length = 44
    ∧ readLE32 (writeWavHeader 160000 16000 16 1) 4 = 36 + 160000
    ∧ readLE32 (writeWavHeader 160000 16000 16 1) 28 = 16000 * 2
    ∧ readLE16 (writeWavHeader 160000 16000 16 1) 32 = 2
    ∧ readLE16 (writeWavHeader 160000 16000 16 1) 34 = 16
    ∧ readLE32 (writeWavHeader 160000 16000 16 1) 40 = 160000 :=
  C10_wav_header_round_trip 160000 16000 (by norm_num) (by norm_num)
